import Mathlib

/-!
Verification of the goodelivery offline bitcoin tool (goodelivery.go) against
its design specification.  The session plumbing (flag defaults, file loading,
passphrase prompting, network selection) is embedded directly from
goodelivery.go.  The cryptographic engine functions invoked by `Run`
(enc38, dec38, decode39, insert, move) live in companion files of the
repository that are not part of the provided source; they are modelled from
the specification, with the elliptic-curve / hash / KDF primitives treated as
an abstract parameter structure, exactly as the specification treats them
("assumed available as a vetted external library").
-/

/-- Network parameter presets, embedding the two chaincfg.Params values
selected in goodelivery.go LoadFiles (chaincfg.MainNetParams and
chaincfg.TestNet3Params).  Only the fields the specification names are
carried: the address-version byte, the WIF version byte, and the
encrypted-key version prefix byte list. -/
structure ChainParams where
  name : String
  pubKeyHashAddrID : Nat
  privateKeyID : Nat
  encKeyVersionBytes : List Nat
deriving DecidableEq, Repr

/-- The mainnet preset (chaincfg.MainNetParams: address version 0x00,
WIF version 0x80, BIP38 version bytes 0x01 0x42). -/
def MainNetParams : ChainParams :=
  { name := "mainnet", pubKeyHashAddrID := 0, privateKeyID := 128,
    encKeyVersionBytes := [1, 66] }

/-- The testnet preset (chaincfg.TestNet3Params: address version 0x6f,
WIF version 0xef, BIP38 version bytes 0x01 0x42). -/
def TestNet3Params : ChainParams :=
  { name := "testnet3", pubKeyHashAddrID := 111, privateKeyID := 239,
    encKeyVersionBytes := [1, 66] }

/-- The goodelivery session struct (GDsession in goodelivery.go).  Go's
pointer-to-flag-value fields become plain values; NetParams, a pointer that
is nil until LoadFiles runs, becomes an Option. -/
structure GDsession where
  command : String
  inFileName : String
  inFile : String
  outFileName : String
  wifkey : String
  wiffile : String
  bip38key : String
  destAdr : String
  pass : String
  bits : Int
  index : Int
  fee : Int
  echo : Bool
  star : Bool
  verbose : Bool
  bip44 : Bool
  mainArg : Bool
  netParams : Option ChainParams
deriving DecidableEq, Repr

/-- The command-line arguments actually supplied by the operator: for each
flag defined in GDsession.setFlags, `none` means the flag was absent from
the command line (so Go's flag package keeps the registered default) and
`some v` means the operator supplied the value v. -/
structure FlagArgs where
  inFileName : Option String
  outFileName : Option String
  wiffile : Option String
  wifkey : Option String
  bip38key : Option String
  destAdr : Option String
  pass : Option String
  bits : Option Int
  index : Option Int
  fee : Option Int
  echo : Option Bool
  star : Option Bool
  verbose : Option Bool
  mainArg : Option Bool
  bip44 : Option Bool
deriving DecidableEq, Repr

/-- A FlagArgs value with every flag absent: the bare command line. -/
def FlagArgs.empty : FlagArgs :=
  { inFileName := none, outFileName := none, wiffile := none, wifkey := none,
    bip38key := none, destAdr := none, pass := none, bits := none,
    index := none, fee := none, echo := none, star := none, verbose := none,
    mainArg := none, bip44 := none }

/-- GDsession.setFlags from goodelivery.go: registers every flag with its
default value, so the resulting session holds the supplied value where one
was given and the registered default otherwise.  Defaults as in the source:
strings default to the empty string, b to 128, n to 21, fee to 21, echo,
star, v and b44 to false, and main to true. -/
def setFlags (a : FlagArgs) : GDsession :=
  { command := "",
    inFileName := a.inFileName.getD "",
    inFile := "",
    outFileName := a.outFileName.getD "",
    wifkey := a.wifkey.getD "",
    wiffile := a.wiffile.getD "",
    bip38key := a.bip38key.getD "",
    destAdr := a.destAdr.getD "",
    pass := a.pass.getD "",
    bits := a.bits.getD 128,
    index := a.index.getD 21,
    fee := a.fee.getD 21,
    echo := a.echo.getD false,
    star := a.star.getD false,
    verbose := a.verbose.getD false,
    bip44 := a.bip44.getD false,
    mainArg := a.mainArg.getD true,
    netParams := none }

/-- Go's unicode.IsSpace restricted to the code points strings.TrimSpace
can meet in the Latin-1 range: space, tab, newline, vertical tab, form
feed, carriage return, next line and no-break space. -/
def isGoSpace (c : Char) : Bool :=
  c = ' ' || c = '\t' || c = '\n' || c = '\r' || c = '\x0b' || c = '\x0c' ||
  c = '\x85' || c = '\xa0'

/-- Go strings.TrimSpace: drop leading and trailing white space. -/
def trimSpace (s : String) : String :=
  String.mk (((s.data.dropWhile isGoSpace).reverse.dropWhile isGoSpace).reverse)

/-- The file system seen by LoadFiles: a file name maps to its content, or
to none when reading it fails. -/
def FileSys := String → Option String

/-- GDsession.LoadFiles from goodelivery.go: first selects the network from
the main flag (MainNetParams when set, TestNet3Params otherwise), then, when
a wiffile name is present, reads that file, strips whitespace and OVERWRITES
the wifkey field with it, then, when an input-file name is present, reads it,
strips whitespace and stores it in inFile.  A failing read aborts with the
error. -/
def LoadFiles (fs : FileSys) (g : GDsession) : Except String GDsession :=
  let g1 : GDsession :=
    { g with
      netParams := some (if g.mainArg then MainNetParams else TestNet3Params) }
  let step2 : Except String GDsession :=
    if g1.wiffile = "" then Except.ok g1
    else
      match fs g1.wiffile with
      | none => Except.error "wiffile read failed"
      | some b => Except.ok { g1 with wifkey := trimSpace b }
  match step2 with
  | Except.error e => Except.error e
  | Except.ok g2 =>
    if g2.inFileName = "" then Except.ok g2
    else
      match fs g2.inFileName with
      | none => Except.error "input file read failed"
      | some b => Except.ok { g2 with inFile := trimSpace b }

/-- What GDsession.prompt does, as an action description: either it returns
the bytes of the session's pass field with a nil error and touches nothing
else, or it reads a line from standard input in one of the three interactive
modes (masked stars, clear echo, hidden). -/
inductive PromptAction where
  | usePass (bytes : String)
  | readMasked
  | readEcho
  | readHidden
deriving DecidableEq, Repr

/-- Whether the action consumes standard input. -/
def PromptAction.readsStdin : PromptAction → Bool
  | PromptAction.usePass _ => false
  | PromptAction.readMasked => true
  | PromptAction.readEcho => true
  | PromptAction.readHidden => true

/-- GDsession.prompt from goodelivery.go: when the pass field is non-empty
its bytes are returned at once (nil error, no prompt printed, no stdin
read); otherwise the prompt is printed and a line is read, masked when star
is set (star wins over echo), echoed when only echo is set, hidden
otherwise. -/
def prompt (g : GDsession) : PromptAction :=
  if g.pass ≠ "" then PromptAction.usePass g.pass
  else if g.star then PromptAction.readMasked
  else if g.echo then PromptAction.readEcho
  else PromptAction.readHidden

/-- Byte-wise exclusive or of two byte sequences (truncating to the shorter,
as the engine only ever applies it to equal-length 16-byte blocks). -/
def xorBytes (a b : List Nat) : List Nat :=
  List.zipWith Nat.xor a b

/-- Modelled from the spec: the elliptic-curve, hash, KDF and cipher
primitives that the specification assumes "available as a vetted external
library and excluded from the count".  The repository files implementing
enc38, dec38, decode39, insert and move are not part of the provided source,
so the engine below is built over this abstract primitive set; the only
facts the proofs use are the documented library contracts (scrypt yields 64
bytes, AES decryption inverts AES encryption on 16-byte blocks). -/
structure CryptoPrims where
  addressOf : ChainParams → List Nat → String
  hash256 : String → List Nat
  scrypt : String → List Nat → List Nat
  aesEnc : List Nat → List Nat → List Nat
  aesDec : List Nat → List Nat → List Nat
  toSeed : String → String → List Nat
  masterKey : List Nat → List Nat × List Nat
  ckd : List Nat × List Nat → Nat → Bool → List Nat × List Nat
  addressOfExt : ChainParams → List Nat × List Nat → String
  wifOf : ChainParams → List Nat × List Nat → String
  payToAddrScript : String → List Nat
  sigScript : List Nat → List Nat
  scrypt_len : ∀ p s, (scrypt p s).length = 64
  aes_dec_enc : ∀ k b, b.length = 16 → aesDec k (aesEnc k b) = b

/-- The error taxonomy of the specification (section 7). -/
inductive GDErr where
  | KeyAddressMismatch
  | InsufficientFunds
  | MissingKey
  | WrongPassphrase
  | InvalidRecord
deriving DecidableEq, Repr

/-- Modelled from the spec: the decoded structure of an EncryptedKeyRecord
(version bytes, flag byte, 4-byte address-hash salt, two 16-byte AES
blocks); the surrounding Base58Check transport encoding round-trips and is
handled by the library, so the record is kept structurally. -/
structure EncKeyRecord where
  version : List Nat
  flagByte : Nat
  salt : List Nat
  block1 : List Nat
  block2 : List Nat
deriving DecidableEq, Repr

/-- The flag byte of the supported non-multiplied compressed mode (0xC0). -/
def b38FlagNonMul : Nat := 192

/-- Modelled from the spec: enc38 (the `enc` command's engine, bip38.go is
not in the provided source).  Compute the key's address, salt = first 4
bytes of double-SHA-256 of the address text, derive 64 bytes by scrypt,
split into two 32-byte halves, XOR the two 16-byte key halves with the two
16-byte halves of the first derived half and AES-encrypt each block under
the second derived half. -/
def enc38 (C : CryptoPrims) (netP : ChainParams) (priv : List Nat)
    (pass : String) : EncKeyRecord :=
  let addr := C.addressOf netP priv
  let salt := (C.hash256 addr).take 4
  let derived := C.scrypt pass salt
  let dh1 := derived.take 32
  let dh2 := derived.drop 32
  { version := netP.encKeyVersionBytes,
    flagByte := b38FlagNonMul,
    salt := salt,
    block1 := C.aesEnc dh2 (xorBytes (priv.take 16) (dh1.take 16)),
    block2 := C.aesEnc dh2 (xorBytes (priv.drop 16) (dh1.drop 16)) }

/-- Modelled from the spec: dec38 (the `dec` command's engine).  Reject a
wrong version or flag byte before the expensive key stretch, then invert the
transform and compare the recovered key's re-derived address hash against
the record's embedded salt; on mismatch fail with WrongPassphrase and return
no key bytes. -/
def dec38 (C : CryptoPrims) (netP : ChainParams) (r : EncKeyRecord)
    (pass : String) : Except GDErr (List Nat) :=
  if r.version = netP.encKeyVersionBytes ∧ r.flagByte = b38FlagNonMul then
    let derived := C.scrypt pass r.salt
    let dh1 := derived.take 32
    let dh2 := derived.drop 32
    let p1 := xorBytes (C.aesDec dh2 r.block1) (dh1.take 16)
    let p2 := xorBytes (C.aesDec dh2 r.block2) (dh1.drop 16)
    let priv := p1 ++ p2
    if (C.hash256 (C.addressOf netP priv)).take 4 = r.salt then Except.ok priv
    else Except.error GDErr.WrongPassphrase
  else Except.error GDErr.InvalidRecord

/-- The portable utxo record: outpoint, value, locking script, the address
the script pays to, and the optional private key material. -/
structure PortxoRecord where
  txid : List Nat
  outIndex : Nat
  value : Int
  pkScript : List Nat
  address : String
  key : Option (List Nat)
deriving DecidableEq, Repr

/-- Modelled from the spec: insert (the `insert` command's engine, portxo
handling is not in the provided source).  Derive the address of the
candidate key; on match return a copy of the record with the key attached,
on mismatch fail with KeyAddressMismatch — the embedding is pure, so the
input record is untouched on every path.  (Named insertPortxo here because
core Lean already exports a global insert.) -/
def insertPortxo (C : CryptoPrims) (netP : ChainParams) (r : PortxoRecord)
    (cand : List Nat) : Except GDErr PortxoRecord :=
  if C.addressOf netP cand = r.address then
    Except.ok { r with key := some cand }
  else Except.error GDErr.KeyAddressMismatch

/-- One output of a spend transaction: value and locking script. -/
structure TxOut where
  value : Int
  pkScript : List Nat
deriving DecidableEq, Repr

/-- One input of a spend transaction: outpoint and unlocking script. -/
structure TxIn where
  prevTxid : List Nat
  prevIndex : Nat
  unlockScript : List Nat
deriving DecidableEq, Repr

/-- A spend transaction skeleton: ordered inputs and outputs. -/
structure SpendTx where
  ins : List TxIn
  outs : List TxOut
deriving DecidableEq, Repr

/-- Total input value of a record set. -/
def totalValue (rs : List PortxoRecord) : Int :=
  (rs.map (fun r => r.value)).sum

/-- Modelled from the spec: estimated transaction size from fixed
per-input and per-output byte costs with the worst-case signature length
(10 overhead bytes, 148 bytes per input, 34 bytes per output). -/
def estimateTxSize (nIn nOut : Nat) : Nat :=
  10 + 148 * nIn + 34 * nOut

/-- The fee the move operation computes for a record set: estimated size of
the one-output sweep times the fee rate in satoshis per byte. -/
def txFee (rs : List PortxoRecord) (rate : Int) : Int :=
  (estimateTxSize rs.length 1 : Nat) * rate

/-- Modelled from the spec: move (the TransactionSigner engine, not in the
provided source).  Abort with MissingKey when any selected record carries no
key; compute total and fee; abort with InsufficientFunds when total < fee;
otherwise build the single-output sweep sending total minus fee to the
destination and sign every input. -/
def move (C : CryptoPrims) (rs : List PortxoRecord) (dest : String)
    (rate : Int) : Except GDErr SpendTx :=
  if rs.all (fun r => r.key.isSome) then
    let total := totalValue rs
    let fee := txFee rs rate
    if total < fee then Except.error GDErr.InsufficientFunds
    else
      Except.ok
        { ins := rs.map (fun r =>
            { prevTxid := r.txid, prevIndex := r.outIndex,
              unlockScript := C.sigScript (r.key.getD []) }),
          outs := [{ value := total - fee,
                     pkScript := C.payToAddrScript dest }] }
  else Except.error GDErr.MissingKey

/-- The move operation as the `move` command runs it: records and
destination from the session inputs, fee rate from the session's fee flag. -/
def GDsession.moveOp (g : GDsession) (C : CryptoPrims)
    (rs : List PortxoRecord) : Except GDErr SpendTx :=
  move C rs g.destAdr g.fee

/-- Modelled from the spec: the default derivation path m over 0 hardened,
0 hardened, address index k non-hardened.  Each step is (index, hardened). -/
def defaultDerivationPath (k : Nat) : List (Nat × Bool) :=
  [(0, true), (0, true), (k, false)]

/-- Modelled from the spec: the four-level BIP44 path for the coin
(purpose 44 hardened, coin hardened, account 0 hardened, address index k
non-hardened). -/
def bip44DerivationPath (coin k : Nat) : List (Nat × Bool) :=
  [(44, true), (coin, true), (0, true), (k, false)]

/-- The derivation path the session uses for address index k: the BIP44
path when the b44 flag is set, the default path otherwise — the complete
supported policy set. -/
def sessionPath (g : GDsession) (coin k : Nat) : List (Nat × Bool) :=
  if g.bip44 then bip44DerivationPath coin k else defaultDerivationPath k

/-- Fold the child-key-derivation primitive along a path. -/
def derivePath (C : CryptoPrims) (root : List Nat × List Nat)
    (p : List (Nat × Bool)) : List Nat × List Nat :=
  p.foldl (fun ek step => C.ckd ek step.1 step.2) root

/-- The BIP44 coin number for the active network. -/
def coinOf (netP : ChainParams) : Nat :=
  if netP = MainNetParams then 0 else 1

/-- Modelled from the spec: decode39 (the `adr` and `key` commands'
engine).  Stretch the mnemonic and passphrase into a seed, derive the
master key, and emit the session's index-count many addresses — paired with
their WIF keys when withKey is set — at increasing non-hardened address
index under the session's path policy. -/
def decode39 (C : CryptoPrims) (netP : ChainParams) (g : GDsession)
    (withKey : Bool) : List (String × Option String) :=
  let root := C.masterKey (C.toSeed g.inFile g.pass)
  (List.range g.index.toNat).map (fun k =>
    let ek := derivePath C root (sessionPath g (coinOf netP) k)
    (C.addressOfExt netP ek, if withKey then some (C.wifOf netP ek) else none))

/-- A small concrete primitive set used to instantiate the engine on
concrete inputs: an address function that distinguishes 32-byte keys, a
constant hash, a constant-output scrypt of the documented 64-byte length,
and an invertible toy block cipher. -/
def testPrims : CryptoPrims :=
  { addressOf := fun _ k => if k.length = 32 then "A32" else "B",
    hash256 := fun _ => [9, 8, 7, 6, 5],
    scrypt := fun _ _ => List.replicate 64 3,
    aesEnc := fun _ b => b.reverse,
    aesDec := fun _ b => b.reverse,
    toSeed := fun m p => [m.length, p.length],
    masterKey := fun s => (s, s),
    ckd := fun ek i h => (ek.1 ++ [i, if h then 1 else 0], ek.2),
    addressOfExt := fun _ ek => String.mk (ek.1.map (fun n => Char.ofNat (65 + n % 26))),
    wifOf := fun _ _ => "WIFKEY",
    payToAddrScript := fun _ => [118, 169],
    sigScript := fun k => 72 :: k,
    scrypt_len := fun _ _ => by simp,
    aes_dec_enc := fun _ b _ => List.reverse_reverse b }

/-- A file system holding one WIF file and one input file, with padding
whitespace around both contents. -/
def fsW : FileSys := fun n =>
  if n = "w.txt" then some "  L1aaa  \n"
  else if n = "i.txt" then some "\tdeadbeef " else none

/-- A session naming both files and already carrying an inline WIF that the
file content must overwrite. -/
def gW : GDsession :=
  setFlags { FlagArgs.empty with
             wiffile := some "w.txt", inFileName := some "i.txt",
             wifkey := some "OLDWIF" }

/-- The session gW after LoadFiles: mainnet selected, wifkey overwritten by
the trimmed wiffile content, inFile holding the trimmed input text. -/
def gWout : GDsession :=
  { gW with
    netParams := some MainNetParams, wifkey := "L1aaa",
    inFile := "deadbeef" }

/-- A keyed record whose value meets the fee of a one-input one-output
sweep at rate 1 exactly (estimateTxSize 1 1 is 192 bytes). -/
def recEq : PortxoRecord :=
  { txid := [0], outIndex := 0, value := 192, pkScript := [],
    address := "A32", key := some [7] }

/-- A keyed record one satoshi short of that fee. -/
def recLt : PortxoRecord :=
  { txid := [0], outIndex := 0, value := 191, pkScript := [],
    address := "A32", key := some [7] }

/-- An unkeyed record paying the address testPrims derives for every
32-byte key. -/
def rec0 : PortxoRecord :=
  { txid := [1, 2], outIndex := 1, value := 100000, pkScript := [118],
    address := "A32", key := none }

/-- A file system on which every read fails (never consulted when no file
names are set). -/
def fsNone : FileSys := fun _ => none

/-- The bare-command-line session after LoadFiles: mainnet selected and
nothing else changed. -/
def gMainOut : GDsession :=
  { setFlags FlagArgs.empty with netParams := some MainNetParams }

/-- Length of a byte-wise xor is the shorter operand's length. -/
theorem length_xorBytes (a b : List Nat) :
    (xorBytes a b).length = min a.length b.length := by
  simp [xorBytes]

/-- Xoring the same mask twice over equal-length sequences is the
identity. -/
theorem xorBytes_cancel : ∀ {a b : List Nat}, a.length = b.length →
    xorBytes (xorBytes a b) b = a := by
  intro a
  induction a with
  | nil => intro b h; simp [xorBytes]
  | cons x xs ih =>
    intro b h
    cases b with
    | nil => simp at h
    | cons y ys =>
      have h' : xs.length = ys.length := by simpa using h
      have e1 : xorBytes (x :: xs) (y :: ys) = (x ^^^ y) :: xorBytes xs ys := rfl
      have e2 : xorBytes ((x ^^^ y) :: xorBytes xs ys) (y :: ys) =
          ((x ^^^ y) ^^^ y) :: xorBytes (xorBytes xs ys) ys := rfl
      rw [e1, e2, ih h', Nat.xor_assoc, Nat.xor_self, Nat.xor_zero]

/-- One 16-byte block of the BIP38 transform round-trips: decrypt then
unmask recovers the plaintext half. -/
theorem block_roundtrip (C : CryptoPrims) (k p d : List Nat)
    (hp : p.length = 16) (hd : d.length = 16) :
    xorBytes (C.aesDec k (C.aesEnc k (xorBytes p d))) d = p := by
  rw [C.aes_dec_enc k (xorBytes p d) (by rw [length_xorBytes, hp, hd]; rfl)]
  exact xorBytes_cancel (by rw [hp, hd])

/-- The two-block BIP38 unblinding inverts the two-block blinding: for a
64-byte derived sequence and a 32-byte key, decrypting and unmasking both
halves and re-joining them recovers the key. -/
theorem bip38_unblind (C : CryptoPrims) (k d priv : List Nat)
    (hd : d.length = 64) (hp : priv.length = 32) :
    xorBytes (C.aesDec k (C.aesEnc k
        (xorBytes (priv.take 16) ((d.take 32).take 16)))) ((d.take 32).take 16) ++
      xorBytes (C.aesDec k (C.aesEnc k
        (xorBytes (priv.drop 16) ((d.take 32).drop 16)))) ((d.take 32).drop 16) =
      priv := by
  rw [block_roundtrip C k (priv.take 16) ((d.take 32).take 16)
        (by rw [List.length_take, hp]; omega)
        (by rw [List.length_take, List.length_take, hd]; omega)
        ,
      block_roundtrip C k (priv.drop 16) ((d.take 32).drop 16)
        (by rw [List.length_drop, hp])
        (by rw [List.length_drop, List.length_take, hd]; omega),
      List.take_append_drop]

/-- C1: for every 32-byte private key (so in particular every key in the
valid scalar range) and every passphrase, enc38 followed by dec38 with the
same passphrase returns the original key bytes, for any primitive set
satisfying the library contracts. -/
theorem enc38_dec38_roundtrip (C : CryptoPrims) (netP : ChainParams)
    (priv : List Nat) (pass : String) (h : priv.length = 32) :
    dec38 C netP (enc38 C netP priv pass) pass = Except.ok priv := by
  simp only [enc38, dec38]
  rw [if_pos (⟨trivial, trivial⟩ : True ∧ True),
      bip38_unblind C
        ((C.scrypt pass ((C.hash256 (C.addressOf netP priv)).take 4)).drop 32)
        (C.scrypt pass ((C.hash256 (C.addressOf netP priv)).take 4)) priv
        (C.scrypt_len pass ((C.hash256 (C.addressOf netP priv)).take 4)) h,
      if_pos rfl]

/-- C1 witness: the round trip evaluated on a concrete 32-byte key under
the concrete primitive set. -/
theorem enc38_dec38_roundtrip_witness :
    (List.replicate 32 7).length = 32 ∧
    dec38 testPrims MainNetParams
      (enc38 testPrims MainNetParams (List.replicate 32 7) "pw") "pw" =
      Except.ok (List.replicate 32 7) :=
  ⟨by simp,
   enc38_dec38_roundtrip testPrims MainNetParams (List.replicate 32 7) "pw"
     (by simp)⟩

/-- C2: when the bip44 option is off, the session derives along m over
0 hardened, 0 hardened, k non-hardened — and the only other policy the
session ever selects is the four-level BIP44 path. -/
theorem derivation_path_policy (g : GDsession) (coin k : Nat)
    (h : g.bip44 = false) :
    sessionPath g coin k = [(0, true), (0, true), (k, false)] ∧
    ∀ g' : GDsession, sessionPath g' coin k = defaultDerivationPath k ∨
      sessionPath g' coin k = bip44DerivationPath coin k := by
  refine ⟨by simp [sessionPath, h, defaultDerivationPath], fun g' => ?_⟩
  by_cases hb : g'.bip44
  · exact Or.inr (by simp [sessionPath, hb])
  · exact Or.inl (by simp [sessionPath, hb])

/-- C2 witness: the bare command line leaves bip44 off and index 5 derives
along the default path. -/
theorem derivation_path_policy_witness :
    (setFlags FlagArgs.empty).bip44 = false ∧
    sessionPath (setFlags FlagArgs.empty) 0 5 = [(0, true), (0, true), (5, false)] :=
  ⟨rfl, (derivation_path_policy (setFlags FlagArgs.empty) 0 5 rfl).1⟩

/-- C3: inserting a key whose derived address differs from the record's
address fails with KeyAddressMismatch and returns no record (the input is
untouched, the embedding being pure); on a match the result is the input
record with only the key field set. -/
theorem insertPortxo_address_check (C : CryptoPrims) (netP : ChainParams)
    (r : PortxoRecord) (cand : List Nat) :
    (C.addressOf netP cand ≠ r.address →
      insertPortxo C netP r cand = Except.error GDErr.KeyAddressMismatch) ∧
    (C.addressOf netP cand = r.address →
      insertPortxo C netP r cand = Except.ok { r with key := some cand }) := by
  constructor <;> intro h <;> simp [insertPortxo, h]

/-- C3 witness: a mismatching 3-byte candidate is rejected and a matching
32-byte candidate is attached, on the concrete record rec0. -/
theorem insertPortxo_address_check_witness :
    testPrims.addressOf MainNetParams [1, 2, 3] ≠ rec0.address ∧
    insertPortxo testPrims MainNetParams rec0 [1, 2, 3] =
      Except.error GDErr.KeyAddressMismatch ∧
    insertPortxo testPrims MainNetParams rec0 (List.replicate 32 5) =
      Except.ok { rec0 with key := some (List.replicate 32 5) } :=
  ⟨by decide,
   (insertPortxo_address_check testPrims MainNetParams rec0 [1, 2, 3]).1
     (by decide),
   (insertPortxo_address_check testPrims MainNetParams rec0
     (List.replicate 32 5)).2 (by decide)⟩

/-- C4: over keyed records, a total strictly below the computed fee aborts
the move with InsufficientFunds and emits nothing, while a total equal to
the fee succeeds emitting a single zero-value output. -/
theorem move_fee_boundary (C : CryptoPrims) (rs : List PortxoRecord)
    (dest : String) (rate : Int)
    (hk : rs.all (fun r => r.key.isSome) = true) :
    (totalValue rs < txFee rs rate →
      move C rs dest rate = Except.error GDErr.InsufficientFunds) ∧
    (totalValue rs = txFee rs rate →
      ∃ tx, move C rs dest rate = Except.ok tx ∧
        tx.outs = [{ value := 0, pkScript := C.payToAddrScript dest }]) := by
  constructor
  · intro hlt
    simp [move, hk, hlt]
  · intro heq
    have hnl : ¬ totalValue rs < txFee rs rate := by omega
    have hz : totalValue rs - txFee rs rate = 0 := by omega
    have hm : move C rs dest rate = Except.ok
        { ins := rs.map (fun r =>
            { prevTxid := r.txid
              prevIndex := r.outIndex
              unlockScript := C.sigScript (r.key.getD []) })
          outs := [{ value := 0, pkScript := C.payToAddrScript dest }] } := by
      simp [move, hk, hnl, hz]
    exact ⟨_, hm, rfl⟩

/-- C4 witness: with one keyed 191-satoshi record the 192-satoshi fee is
unaffordable; with the 192-satoshi record the sweep emits one zero-value
output. -/
theorem move_fee_boundary_witness :
    move testPrims [recLt] "dst" 1 = Except.error GDErr.InsufficientFunds ∧
    (∃ tx, move testPrims [recEq] "dst" 1 = Except.ok tx ∧
      tx.outs = [{ value := 0, pkScript := testPrims.payToAddrScript "dst" }]) :=
  ⟨(move_fee_boundary testPrims [recLt] "dst" 1 (by decide)).1 (by decide),
   (move_fee_boundary testPrims [recEq] "dst" 1 (by decide)).2 (by decide)⟩

/-- C5: without a fee flag the session's fee rate is exactly 21 satoshis
per byte and the move command runs at that rate. -/
theorem default_fee_rate (a : FlagArgs) (h : a.fee = none) :
    (setFlags a).fee = 21 ∧
    ∀ C rs, GDsession.moveOp (setFlags a) C rs =
      move C rs (setFlags a).destAdr 21 := by
  have hf : (setFlags a).fee = 21 := by simp [setFlags, h]
  exact ⟨hf, fun C rs => by unfold GDsession.moveOp; rw [hf]⟩

/-- C5 witness: the bare command line has no fee flag and gets rate 21. -/
theorem default_fee_rate_witness :
    FlagArgs.empty.fee = none ∧ (setFlags FlagArgs.empty).fee = 21 :=
  ⟨rfl, (default_fee_rate FlagArgs.empty rfl).1⟩

/-- C6: without an n flag decode39 emits exactly 21 address entries. -/
theorem default_address_count (a : FlagArgs) (h : a.index = none) :
    ∀ C netP withKey, (decode39 C netP (setFlags a) withKey).length = 21 := by
  intro C netP withKey
  have hi : (setFlags a).index = 21 := by simp [setFlags, h]
  simp [decode39, hi]

/-- C6 witness: the bare command line yields 21 derived addresses under the
concrete primitive set. -/
theorem default_address_count_witness :
    FlagArgs.empty.index = none ∧
    (decode39 testPrims MainNetParams (setFlags FlagArgs.empty) false).length = 21 :=
  ⟨rfl, default_address_count FlagArgs.empty rfl testPrims MainNetParams false⟩

/-- C9: a non-empty pass field short-circuits prompting — its bytes come
back with no error and stdin is never read; stdin is read only when pass is
empty, and with both star and echo set the masked mode wins. -/
theorem prompt_pass_shortcut (g : GDsession) :
    (g.pass ≠ "" → prompt g = PromptAction.usePass g.pass ∧
      (prompt g).readsStdin = false) ∧
    ((prompt g).readsStdin = true → g.pass = "") ∧
    (g.pass = "" → g.star = true → prompt g = PromptAction.readMasked) := by
  refine ⟨fun h => ?_, fun h => ?_, fun h1 h2 => ?_⟩
  · simp [prompt, h, PromptAction.readsStdin]
  · by_contra hne
    simp [prompt, hne, PromptAction.readsStdin] at h
  · simp [prompt, h1, h2]

/-- C9 witness: a session with pass set answers with those bytes, and a
session with both star and echo set reads masked. -/
theorem prompt_pass_shortcut_witness :
    prompt (setFlags { FlagArgs.empty with pass := some "pw" }) =
      PromptAction.usePass "pw" ∧
    prompt (setFlags { FlagArgs.empty with
      star := some true, echo := some true }) = PromptAction.readMasked :=
  ⟨((prompt_pass_shortcut (setFlags { FlagArgs.empty with pass := some "pw" })).1
      (by decide)).1,
   (prompt_pass_shortcut (setFlags { FlagArgs.empty with
      star := some true, echo := some true })).2.2 (by decide) (by decide)⟩

/-- Full characterization of a successful LoadFiles run: the network preset
follows the main flag, a named wiffile's trimmed content lands in wifkey,
and a named input file's trimmed content lands in inFile. -/
theorem loadFiles_ok_spec (fs : FileSys) (g g' : GDsession)
    (h : LoadFiles fs g = Except.ok g') :
    g'.netParams = some (if g.mainArg then MainNetParams else TestNet3Params) ∧
    (∀ c, g.wiffile ≠ "" → fs g.wiffile = some c → g'.wifkey = trimSpace c) ∧
    (∀ c, g.inFileName ≠ "" → fs g.inFileName = some c →
      g'.inFile = trimSpace c) := by
  by_cases hw : g.wiffile = ""
  · by_cases hi : g.inFileName = ""
    · simp [LoadFiles, hw, hi] at h
      subst h
      exact ⟨rfl, fun c hc _ => absurd hw hc, fun c hc _ => absurd hi hc⟩
    · cases hfi : fs g.inFileName with
      | none => simp [LoadFiles, hw, hi, hfi] at h
      | some ci =>
        simp [LoadFiles, hw, hi, hfi] at h
        subst h
        refine ⟨rfl, fun c hc _ => absurd hw hc, fun c hc hfc => ?_⟩
        injection hfc with hcc
        rw [← hcc]
  · cases hfw : fs g.wiffile with
    | none => simp [LoadFiles, hw, hfw] at h
    | some cw =>
      by_cases hi : g.inFileName = ""
      · simp [LoadFiles, hw, hfw, hi] at h
        subst h
        refine ⟨rfl, fun c hc hfc => ?_, fun c hc _ => absurd hi hc⟩
        injection hfc with hcc
        rw [← hcc]
      · cases hfi : fs g.inFileName with
        | none => simp [LoadFiles, hw, hfw, hi, hfi] at h
        | some ci =>
          simp [LoadFiles, hw, hfw, hi, hfi] at h
          subst h
          refine ⟨rfl, fun c hc hfc => ?_, fun c hc hfc => ?_⟩
          · injection hfc with hcc
            rw [← hcc]
          · injection hfc with hcc
            rw [← hcc]

/-- C7: after a successful LoadFiles the session's network parameter object
is exactly one of the two presets, mainnet or testnet. -/
theorem loadFiles_two_presets (fs : FileSys) (g g' : GDsession)
    (h : LoadFiles fs g = Except.ok g') :
    g'.netParams = some MainNetParams ∨ g'.netParams = some TestNet3Params := by
  have hn := (loadFiles_ok_spec fs g g' h).1
  by_cases hm : g.mainArg = true
  · exact Or.inl (by rw [hn, if_pos hm])
  · exact Or.inr (by rw [hn, if_neg hm])

/-- C7 witness: the bare command line load lands on the mainnet preset. -/
theorem loadFiles_two_presets_witness :
    gMainOut.netParams = some MainNetParams ∨
    gMainOut.netParams = some TestNet3Params :=
  loadFiles_two_presets fsNone (setFlags FlagArgs.empty) gMainOut rfl

/-- C8: when the main flag is absent from the command line its registered
default (true) applies, so LoadFiles selects the MAINNET preset — despite
the session-struct comment claiming a testnet default. -/
theorem default_flag_selects_mainnet (a : FlagArgs) (fs : FileSys)
    (g' : GDsession) (ha : a.mainArg = none)
    (h : LoadFiles fs (setFlags a) = Except.ok g') :
    g'.netParams = some MainNetParams := by
  have hm : (setFlags a).mainArg = true := by simp [setFlags, ha]
  have hn := (loadFiles_ok_spec fs (setFlags a) g' h).1
  rw [hn, if_pos hm]

/-- C8 witness: the bare command line (no main flag) loads mainnet. -/
theorem default_flag_selects_mainnet_witness :
    FlagArgs.empty.mainArg = none ∧ gMainOut.netParams = some MainNetParams :=
  ⟨rfl, default_flag_selects_mainnet FlagArgs.empty fsNone gMainOut rfl rfl⟩

/-- C10: a successful LoadFiles stores the wiffile's content whitespace
trimmed in wifkey — overwriting whatever WIF the wif flag put there, since
the stored value depends only on the file content — and the input file's
content whitespace trimmed in inFile. -/
theorem loadFiles_trims_and_overwrites (fs : FileSys) (g g' : GDsession)
    (h : LoadFiles fs g = Except.ok g') :
    (∀ c, g.wiffile ≠ "" → fs g.wiffile = some c → g'.wifkey = trimSpace c) ∧
    (∀ c, g.inFileName ≠ "" → fs g.inFileName = some c →
      g'.inFile = trimSpace c) :=
  ⟨(loadFiles_ok_spec fs g g' h).2.1, (loadFiles_ok_spec fs g g' h).2.2⟩

/-- C10 witness: loading the concrete padded files overwrites the inline
WIF with the trimmed file content and trims the input text. -/
theorem loadFiles_trims_and_overwrites_witness :
    gW.wifkey = "OLDWIF" ∧
    gWout.wifkey = trimSpace "  L1aaa  \n" ∧
    gWout.inFile = trimSpace "\tdeadbeef " :=
  ⟨rfl,
   (loadFiles_trims_and_overwrites fsW gW gWout rfl).1 "  L1aaa  \n"
     (by decide) rfl,
   (loadFiles_trims_and_overwrites fsW gW gWout rfl).2 "\tdeadbeef "
     (by decide) rfl⟩
